import Mathlib

/-!
Verification of the Libra noise-fuzzing harness and the backup chunk
predicate against their natural-language specification.

Sources embedded:
- src/network/src/noise/fuzzing.rs
- src/storage/backup/backup-cli/src/utils/mod.rs

Bytes are modelled as natural numbers; machine-integer overflow is
irrelevant for the quantities involved (slice lengths and small sums).
-/

/-- A byte of the wire. -/
abbrev Byte := Nat

/-- Rust std::task::Poll. -/
inductive Poll (α : Type) where
  | Ready : α → Poll α
  | Pending : Poll α
deriving DecidableEq

/-- Abstract I/O error, as in std::io::Error: only its presence matters here. -/
structure IoError where
  code : Nat
deriving DecidableEq

/-- Rust std::io::Result. -/
inductive IoResult (α : Type) where
  | Ok : α → IoResult α
  | Err : IoError → IoResult α
deriving DecidableEq

/-!
## should_cut_chunk (src/storage/backup/backup-cli/src/utils/mod.rs)

Rust: pub(crate) fn should_cut_chunk(chunk: &[u8], record: &[u8], max_chunk_size: usize) -> bool
returns !chunk.is_empty() && chunk.len() + record.len() + size_of::<u32>() > max_chunk_size.
size_of::<u32>() is 4.
-/

/-- Embedding of should_cut_chunk from the source. -/
def should_cut_chunk (chunk record : List Byte) (max_chunk_size : Nat) : Bool :=
  !chunk.isEmpty && decide (chunk.length + record.length + 4 > max_chunk_size)

/-!
## FakeSocket (src/network/src/noise/fuzzing.rs, lines 143-182)

A FakeSocket serves a fixed byte sequence on reads and discards writes.
Stateful poll methods are modelled by explicit state passing: each method
takes the socket state and returns the result together with the new state.
-/

/-- Embedding of struct FakeSocket: the remaining content slice. -/
structure FakeSocket where
  content : List Byte
deriving DecidableEq

/-- Embedding of FakeSocket poll_read: if nothing is left return Ok 0;
otherwise copy min(buf.len, content.len) bytes of content into the front of
the buffer and advance the content slice. Returns the poll result, the
buffer after the copy, and the new socket state. -/
def FakeSocket.poll_read (s : FakeSocket) (buf : List Byte) :
    Poll (IoResult Nat) × List Byte × FakeSocket :=
  if s.content.isEmpty then
    (Poll.Ready (IoResult.Ok 0), buf, s)
  else
    let to_read := min buf.length s.content.length
    (Poll.Ready (IoResult.Ok to_read),
     s.content.take to_read ++ buf.drop to_read,
     ⟨s.content.drop to_read⟩)

/-- Embedding of FakeSocket poll_write: always reports the full buffer as
written and leaves the state untouched. -/
def FakeSocket.poll_write (s : FakeSocket) (buf : List Byte) :
    Poll (IoResult Nat) × FakeSocket :=
  (Poll.Ready (IoResult.Ok buf.length), s)

/-- Embedding of FakeSocket poll_flush: always succeeds, state untouched. -/
def FakeSocket.poll_flush (s : FakeSocket) : Poll (IoResult Unit) × FakeSocket :=
  (Poll.Ready (IoResult.Ok ()), s)

/-- Embedding of FakeSocket poll_close: always succeeds, state untouched. -/
def FakeSocket.poll_close (s : FakeSocket) : Poll (IoResult Unit) × FakeSocket :=
  (Poll.Ready (IoResult.Ok ()), s)

/-!
## ExposingSocket (src/network/src/noise/fuzzing.rs, lines 36-84)

ExposingSocket wraps an inner MemorySocket and captures written bytes.
The memsocket crate is not part of this repository, so the inner socket is
an arbitrary state machine supplied as a parameter.
-/

/-- Modelled from the spec: the inner MemorySocket (external memsocket
crate, absent from the sources) is an abstract duplex Transport with
possibly short reads and writes and an explicit close; no protocol
knowledge. It is modelled as an arbitrary family of transition functions
over an abstract state type. -/
structure MemorySocketModel (σ : Type) where
  poll_write : σ → List Byte → Poll (IoResult Nat) × σ
  poll_flush : σ → Poll (IoResult Unit) × σ
  poll_close : σ → Poll (IoResult Unit) × σ
  poll_read : σ → List Byte → Poll (IoResult Nat) × List Byte × σ

/-- Embedding of struct ExposingSocket: an inner socket plus the capture
log of written bytes. -/
structure ExposingSocket (σ : Type) where
  inner : σ
  written : List Byte

/-- Embedding of ExposingSocket poll_write: forward to the inner socket;
on Pending or Err return that outcome unchanged (the ready! macro and the
question-mark operator); on Ok n append the first n bytes of the buffer to
the capture log. -/
def ExposingSocket.poll_write (M : MemorySocketModel σ) (s : ExposingSocket σ)
    (buf : List Byte) : Poll (IoResult Nat) × ExposingSocket σ :=
  match M.poll_write s.inner buf with
  | (Poll.Pending, inner2) => (Poll.Pending, { s with inner := inner2 })
  | (Poll.Ready (IoResult.Err e), inner2) =>
      (Poll.Ready (IoResult.Err e), { s with inner := inner2 })
  | (Poll.Ready (IoResult.Ok n), inner2) =>
      (Poll.Ready (IoResult.Ok n),
       { inner := inner2, written := s.written ++ buf.take n })

/-- Embedding of ExposingSocket poll_flush: delegate to the inner socket. -/
def ExposingSocket.poll_flush (M : MemorySocketModel σ) (s : ExposingSocket σ) :
    Poll (IoResult Unit) × ExposingSocket σ :=
  let r := M.poll_flush s.inner
  (r.1, { s with inner := r.2 })

/-- Embedding of ExposingSocket poll_close: delegate to the inner socket. -/
def ExposingSocket.poll_close (M : MemorySocketModel σ) (s : ExposingSocket σ) :
    Poll (IoResult Unit) × ExposingSocket σ :=
  let r := M.poll_close s.inner
  (r.1, { s with inner := r.2 })

/-- Embedding of ExposingSocket poll_read: delegate to the inner socket. -/
def ExposingSocket.poll_read (M : MemorySocketModel σ) (s : ExposingSocket σ)
    (buf : List Byte) : Poll (IoResult Nat) × List Byte × ExposingSocket σ :=
  let r := M.poll_read s.inner buf
  (r.1, r.2.1, { s with inner := r.2.2 })

/-- Run a sequence of poll_write calls on an ExposingSocket, threading the
state; results are discarded, only the final state is kept. -/
def runWrites (M : MemorySocketModel σ) (s : ExposingSocket σ) :
    List (List Byte) → ExposingSocket σ
  | [] => s
  | buf :: rest => runWrites M (ExposingSocket.poll_write M s buf).2 rest

/-- The bytes the inner socket reports as successfully written during a
sequence of writes starting from inner state st: for each write completed
with Ok n the first n bytes of that buffer, concatenated in order. -/
def emittedBytes (M : MemorySocketModel σ) (st : σ) :
    List (List Byte) → List Byte
  | [] => []
  | buf :: rest =>
    match M.poll_write st buf with
    | (Poll.Ready (IoResult.Ok n), st2) => buf.take n ++ emittedBytes M st2 rest
    | (Poll.Ready (IoResult.Err _), st2) => emittedBytes M st2 rest
    | (Poll.Pending, st2) => emittedBytes M st2 rest

/-!
## Noise upgrade machinery (spec-modelled)

The NoiseUpgrader, the crypto primitives, the MemorySocket and the libra
support crates are not part of the two source files; the fuzzing harness
only calls them. They are modelled from the spec below; every such
definition says so in its doc comment.
-/

/-- Modelled from the spec: TEST_SEED, the fixed seed from the external
libra_crypto test utilities used to derive the deterministic keypair. -/
def TEST_SEED : List Byte := List.replicate 32 0

/-- Modelled from the spec: opaque key-generation primitive — derive a
private key deterministically from a seed. Kept small so the wire encoding
below round-trips. -/
def x25519_generate (seed : List Byte) : Nat :=
  seed.foldl (fun a b => (a * 256 + b) % 65536) 7

/-- Modelled from the spec: opaque public-key derivation from a private
key. -/
def x25519_public_key (sk : Nat) : Nat := sk + 1

/-- Modelled from the spec: opaque shared-secret agreement; symmetric in
the sense needed by the handshake. -/
def dh (sk pk : Nat) : Nat := sk + pk

/-- Modelled from the spec: PeerIdentity is deterministically derived from
a public key. -/
def PeerId.from_identity_public_key (pk : Nat) : Nat := pk

/-- Modelled from the spec: AntiReplayTimestamps TIMESTAMP_SIZE — the
anti-replay timestamp is a fixed-width 8-byte value. -/
def TIMESTAMP_SIZE : Nat := 8

/-- Embedding of fake_timestamp (src lines 184-187): the all-zero array of
TIMESTAMP_SIZE bytes, on every call. -/
def fake_timestamp (_ : Unit) : List Byte := List.replicate TIMESTAMP_SIZE 0

/-- Little-endian 4-byte encoding of a value below 2^32. -/
def encode4 (n : Nat) : List Byte :=
  [n % 256, n / 256 % 256, n / 65536 % 256, n / 16777216 % 256]

/-- Decode a little-endian byte list. -/
def decodeLE (bs : List Byte) : Nat := bs.foldr (fun b a => a * 256 + b) 0

/-- Modelled from the spec: opaque authenticate primitive — a tag over the
running transcript, keyed by the shared secret. -/
def mac (key : Nat) (data : List Byte) : List Byte :=
  encode4 ((data.foldl (fun a b => (a * 31 + b) % 4294967296) key) % 4294967296)

/-- Modelled from the spec: handshake message 1 — initiator key material,
the 8-byte anti-replay timestamp and the initiator identity, bound by an
authentication tag over the payload keyed by the shared secret with the
responder. -/
def msg1 (sk pid : Nat) (ts : List Byte) (remote_public : Nat) : List Byte :=
  let payload := encode4 (x25519_public_key sk) ++ ts ++ encode4 pid
  payload ++ mac (dh sk remote_public) payload

/-- Total length of handshake message 1 in the model. -/
def MSG1_LEN : Nat := 20

/-- Modelled from the spec: handshake message 2 — responder key material
with an authentication tag binding the full transcript. -/
def msg2 (sk : Nat) (transcript : List Byte) (initiator_public : Nat) : List Byte :=
  let payload := encode4 (x25519_public_key sk)
  payload ++ mac (dh sk initiator_public) (transcript ++ payload)

/-- Total length of handshake message 2 in the model. -/
def MSG2_LEN : Nat := 8

/-- Modelled from the spec: the error kinds of a handshake attempt. -/
inductive HandshakeError where
  | Malformed
  | AuthenticationFailure
  | ReplayDetected
  | UnexpectedPeer
  | TransportFailure
deriving DecidableEq

/-- Embedding of HandshakeAuthMode: ServerOnly or Mutual with an accepted
set of peer keys (the mutual variant is modelled from the spec; the
harness only constructs ServerOnly). -/
inductive HandshakeAuthMode where
  | ServerOnly
  | Mutual (allowed : List Nat)
deriving DecidableEq

/-- Modelled from the spec: a Session holds the derived transport key
material of a successful handshake. -/
structure Session where
  transport_key : Nat
deriving DecidableEq

/-- Embedding of NoiseUpgrader: peer identity, own static private key,
authentication mode, and (modelled from the spec) the per-peer replay
window of last accepted timestamps. -/
structure NoiseUpgrader where
  peer_id : Nat
  own_private_key : Nat
  auth_mode : HandshakeAuthMode
  replay_state : List (Nat × Nat)
deriving DecidableEq

/-- Embedding of NoiseUpgrader new: fresh upgrader with an empty replay
window. -/
def NoiseUpgrader.new (peer_id sk : Nat) (mode : HandshakeAuthMode) :
    NoiseUpgrader :=
  ⟨peer_id, sk, mode, []⟩

/-- Last accepted timestamp recorded for a peer, if any. -/
def lookup_last (st : List (Nat × Nat)) (pid : Nat) : Option Nat :=
  match st with
  | [] => none
  | (p, t) :: rest => if p = pid then some t else lookup_last rest pid

/-- Modelled from the spec: timestamp validation — accept iff the
candidate is strictly greater than the last accepted value for that peer;
a peer with no recorded value is accepted. -/
def validate_timestamp (candidate : Nat) (last : Option Nat) : Bool :=
  match last with
  | none => true
  | some l => decide (candidate > l)

/-- Modelled from the spec: the authentication policy check — ServerOnly
accepts any initiator key, Mutual requires membership in the allow-set. -/
def auth_allows (mode : HandshakeAuthMode) (peer_key : Nat) : Bool :=
  match mode with
  | .ServerOnly => true
  | .Mutual allowed => decide (peer_key ∈ allowed)

/-- Modelled from the spec: the Upgrader buffers across possibly short
reads until the requested length is satisfied; a zero-length read
(end-of-stream) before completion is a truncation, reported as none. Fuel
bounds the loop; each successful iteration consumes at least one byte.
Specialized to the FakeSocket transport. -/
def read_loop : Nat → FakeSocket → Nat → List Byte →
    Option (List Byte) × FakeSocket
  | _, s, 0, acc => (some acc, s)
  | 0, s, _ + 1, _ => (none, s)
  | fuel + 1, s, need + 1, acc =>
    match s.poll_read (List.replicate (need + 1) 0) with
    | (Poll.Ready (IoResult.Ok 0), _, s2) => (none, s2)
    | (Poll.Ready (IoResult.Ok (k + 1)), buf, s2) =>
        read_loop fuel s2 (need + 1 - (k + 1)) (acc ++ buf.take (k + 1))
    | (Poll.Ready (IoResult.Err _), _, s2) => (none, s2)
    | (Poll.Pending, _, s2) => (none, s2)

/-- Read exactly n bytes from a FakeSocket, or none on truncation. -/
def read_exact (s : FakeSocket) (n : Nat) : Option (List Byte) × FakeSocket :=
  read_loop n s n []

/-- Modelled from the spec: NoiseUpgrader upgrade_outbound — send message
1 built from a fresh timestamp of the provider, await message 2, verify
its authentication tag against the accumulated transcript; every failure
is a value of one of the defined error kinds. Specialized to the
FakeSocket transport used by the fuzz harness. -/
def NoiseUpgrader.upgrade_outbound (u : NoiseUpgrader) (s : FakeSocket)
    (remote_public : Nat) (time_provider : Unit → List Byte) :
    Except HandshakeError (Session × FakeSocket) :=
  let m1 := msg1 u.own_private_key u.peer_id (time_provider ()) remote_public
  let ws := (s.poll_write m1).2
  let rr := read_exact ws MSG2_LEN
  match rr.1 with
  | none => .error .Malformed
  | some m2 =>
    if m2.drop 4 = mac (dh u.own_private_key remote_public) (m1 ++ m2.take 4) then
      .ok (⟨dh u.own_private_key remote_public⟩, rr.2)
    else
      .error .AuthenticationFailure

/-- Modelled from the spec: NoiseUpgrader upgrade_inbound — read message 1
in full, validate its authentication tag, validate the embedded timestamp
against the replay window for the claimed peer, enforce the authentication
policy, then send message 2 and return the Session with the resolved peer
identity. Specialized to the FakeSocket transport. -/
def NoiseUpgrader.upgrade_inbound (u : NoiseUpgrader) (s : FakeSocket) :
    Except HandshakeError ((Session × Nat) × FakeSocket) :=
  let rr := read_exact s MSG1_LEN
  match rr.1 with
  | none => .error .Malformed
  | some m1 =>
    let epk := decodeLE (m1.take 4)
    let ts := decodeLE ((m1.drop 4).take TIMESTAMP_SIZE)
    let pid := decodeLE ((m1.drop 12).take 4)
    if m1.drop 16 ≠ mac (dh u.own_private_key epk) (m1.take 16) then
      .error .AuthenticationFailure
    else if ¬ validate_timestamp ts (lookup_last u.replay_state pid) then
      .error .ReplayDetected
    else if ¬ auth_allows u.auth_mode epk then
      .error .UnexpectedPeer
    else
      let m2 := msg2 u.own_private_key m1 epk
      let ws := ((rr.2).poll_write m2).2
      .ok ((⟨dh u.own_private_key epk⟩, pid), ws)

/-!
## KEYPAIR and the harness entry points
-/

/-- Modelled from the spec: the computation cached by the KEYPAIR lazy
static — derive the private key from TEST_SEED and pair it with its public
key. -/
def keypair_compute (_ : Unit) : Nat × Nat :=
  let sk := x25519_generate TEST_SEED
  (sk, x25519_public_key sk)

/-- Modelled from the spec: a once-cell lazy value — an optional cached
result. -/
structure LazyCell (α : Type) where
  cached : Option α

/-- Modelled from the spec: forcing a lazy cell — return the cached value
if present, otherwise run the computation once and cache its result. -/
def LazyCell.force (f : Unit → α) (c : LazyCell α) : α × LazyCell α :=
  match c.cached with
  | some v => (v, c)
  | none => let v := f (); (v, ⟨some v⟩)

/-- n successive accesses of a lazy cell: the values returned in order,
the final cell, and the number of times the underlying computation ran. -/
def LazyCell.accesses (f : Unit → α) : Nat → LazyCell α → List α × LazyCell α × Nat
  | 0, c => ([], c, 0)
  | n + 1, c =>
    let v := LazyCell.force f c
    let ran := match c.cached with | none => 1 | some _ => 0
    let rest := LazyCell.accesses f n v.2
    (v.1 :: rest.1, rest.2.1, ran + rest.2.2)

/-- The value held by the KEYPAIR static (src lines 91-96): the keypair
computed from TEST_SEED. -/
def KEYPAIR_value : Nat × Nat := keypair_compute ()

/-- Discarding an upgrade outcome, as the fuzz entry points do with the
underscore binding. -/
def discard_outcome (_ : Except HandshakeError α) : Unit := ()

/-- The upgrade outcome computed inside fuzz_initiator (src lines
189-200): initiator built from the KEYPAIR material under ServerOnly,
FakeSocket over the fuzz data, fake_timestamp as provider. -/
def fuzz_initiator_outcome (data : List Byte) :
    Except HandshakeError (Session × FakeSocket) :=
  let kp := KEYPAIR_value
  let peer_id := PeerId.from_identity_public_key kp.2
  let initiator := NoiseUpgrader.new peer_id kp.1 HandshakeAuthMode.ServerOnly
  initiator.upgrade_outbound ⟨data⟩ kp.2 fake_timestamp

/-- Embedding of fuzz_initiator: run the outbound upgrade on the fuzz data
and discard the outcome. -/
def fuzz_initiator (data : List Byte) : Unit :=
  discard_outcome (fuzz_initiator_outcome data)

/-- The upgrade outcome computed inside fuzz_responder (src lines
202-213). -/
def fuzz_responder_outcome (data : List Byte) :
    Except HandshakeError ((Session × Nat) × FakeSocket) :=
  let kp := KEYPAIR_value
  let peer_id := PeerId.from_identity_public_key kp.2
  let responder := NoiseUpgrader.new peer_id kp.1 HandshakeAuthMode.ServerOnly
  responder.upgrade_inbound ⟨data⟩

/-- Embedding of fuzz_responder: run the inbound upgrade on the fuzz data
and discard the outcome. -/
def fuzz_responder (data : List Byte) : Unit :=
  discard_outcome (fuzz_responder_outcome data)

/-- Modelled from the spec: generate_first_two_messages — clone the
keypair out of the lazy KEYPAIR cell, run one genuine handshake between an
initiator and a responder sharing that key material under ServerOnly over
a pair of instrumented sockets, and return the two capture logs: the
initiator socket log is exactly handshake message 1 and the responder
socket log exactly message 2. The process-level lazy cell is threaded
explicitly. -/
def generate_first_two_messages (st : LazyCell (Nat × Nat)) :
    (List Byte × List Byte) × LazyCell (Nat × Nat) :=
  let f := LazyCell.force keypair_compute st
  let kp := f.1
  let peer_id := PeerId.from_identity_public_key kp.2
  let init_msg := msg1 kp.1 peer_id (fake_timestamp ()) kp.2
  let resp_msg := msg2 kp.1 init_msg (decodeLE (init_msg.take 4))
  ((init_msg, resp_msg), f.2)

/-!
## Theorems
-/

/-- C2: should_cut_chunk returns true iff the chunk is non-empty and
len(chunk) + len(record) + 4 exceeds max_chunk_size; the three concrete
evaluations of the spec hold, and an empty chunk never cuts. -/
theorem should_cut_chunk_spec :
    (∀ (chunk record : List Byte) (m : Nat),
      should_cut_chunk chunk record m = true ↔
        chunk ≠ [] ∧ chunk.length + record.length + 4 > m) ∧
    should_cut_chunk [1, 2, 3] [4, 5] 10 = false ∧
    should_cut_chunk [1, 2, 3] [4, 5] 8 = true ∧
    (∀ (record : List Byte) (m : Nat), should_cut_chunk [] record m = false) := by
  refine ⟨?_, by decide, by decide, ?_⟩
  · intro chunk record m
    simp [should_cut_chunk, List.isEmpty_iff, and_comm]
  · intro record m
    simp [should_cut_chunk]

/-- C3: FakeSocket poll_read always returns Ready (Ok (min N R)) where N is
the buffer size and R the remaining content length, copies exactly the
first min N R remaining bytes into the front of the buffer, and leaves the
suffix after those bytes as the remaining content; in particular when the
content is exhausted it returns Ready (Ok 0), never an error. -/
theorem fakeSocket_poll_read_spec (s : FakeSocket) (buf : List Byte) :
    s.poll_read buf =
      (Poll.Ready (IoResult.Ok (min buf.length s.content.length)),
       s.content.take (min buf.length s.content.length) ++
         buf.drop (min buf.length s.content.length),
       ⟨s.content.drop (min buf.length s.content.length)⟩) := by
  obtain ⟨c⟩ := s
  cases c with
  | nil => simp [FakeSocket.poll_read]
  | cons a l => simp [FakeSocket.poll_read]

/-- C7: FakeSocket poll_write always returns Ready (Ok buf.length) and
poll_flush and poll_close always return Ready (Ok ()); none of the three
modifies the remaining content. -/
theorem fakeSocket_write_flush_close_spec (s : FakeSocket) (buf : List Byte) :
    s.poll_write buf = (Poll.Ready (IoResult.Ok buf.length), s) ∧
    s.poll_flush = (Poll.Ready (IoResult.Ok ()), s) ∧
    s.poll_close = (Poll.Ready (IoResult.Ok ()), s) :=
  ⟨rfl, rfl, rfl⟩

/-- C4: after any sequence of poll_write calls on an ExposingSocket, the
capture log equals the previous log followed by exactly the bytes the inner
socket reported as successfully written, in emission order; the log is
append-only. -/
theorem exposingSocket_write_capture (σ : Type) (M : MemorySocketModel σ)
    (s : ExposingSocket σ) (bufs : List (List Byte)) :
    (runWrites M s bufs).written = s.written ++ emittedBytes M s.inner bufs := by
  induction bufs generalizing s with
  | nil => simp [runWrites, emittedBytes]
  | cons buf rest ih =>
    simp only [runWrites, emittedBytes]
    rcases h : M.poll_write s.inner buf with ⟨p, st2⟩
    cases p with
    | Pending => simp [ExposingSocket.poll_write, h, ih]
    | Ready r =>
      cases r with
      | Ok n => simp [ExposingSocket.poll_write, h, ih]
      | Err e => simp [ExposingSocket.poll_write, h, ih]

/-- C9: ExposingSocket poll_read, poll_flush and poll_close forward the
call to the inner socket with unchanged arguments, return the inner result
unchanged, replace the inner state by the inner's new state, and leave the
capture log untouched. -/
theorem exposingSocket_forwarding (σ : Type) (M : MemorySocketModel σ)
    (s : ExposingSocket σ) (buf : List Byte) :
    ExposingSocket.poll_read M s buf =
      ((M.poll_read s.inner buf).1, (M.poll_read s.inner buf).2.1,
       { inner := (M.poll_read s.inner buf).2.2, written := s.written }) ∧
    ExposingSocket.poll_flush M s =
      ((M.poll_flush s.inner).1,
       { inner := (M.poll_flush s.inner).2, written := s.written }) ∧
    ExposingSocket.poll_close M s =
      ((M.poll_close s.inner).1,
       { inner := (M.poll_close s.inner).2, written := s.written }) :=
  ⟨rfl, rfl, rfl⟩

/-- C1: for every byte sequence, of any length including empty, both fuzz
entry points return unit: the upgrade outcome (success or one of the
defined error kinds) is a value that is caught and discarded, so no input
reaches an unhandled fault. -/
theorem fuzz_entry_points_total (data : List Byte) :
    fuzz_initiator data = () ∧ fuzz_responder data = () :=
  ⟨rfl, rfl⟩

/-- C8: the fuzz entry points factor through discarding the upgrade
outcome, and discarding makes no distinction between a success and any of
the error kinds — any two outcomes are discarded to the same unit value,
and nothing of the outcome is propagated to the caller. -/
theorem fuzz_outcomes_uniformly_discarded :
    (∀ data, fuzz_initiator data = discard_outcome (fuzz_initiator_outcome data)) ∧
    (∀ data, fuzz_responder data = discard_outcome (fuzz_responder_outcome data)) ∧
    (∀ r r2 : Except HandshakeError (Session × FakeSocket),
      discard_outcome r = discard_outcome r2) ∧
    (∀ r r2 : Except HandshakeError ((Session × Nat) × FakeSocket),
      discard_outcome r = discard_outcome r2) :=
  ⟨fun _ => rfl, fun _ => rfl, fun _ _ => rfl, fun _ _ => rfl⟩

/-- C5: two successive invocations of generate_first_two_messages within
one process — starting from the untouched lazy keypair cell and threading
the cell through — produce byte-identical first messages and
byte-identical second messages. -/
theorem generate_first_two_messages_deterministic :
    (generate_first_two_messages (LazyCell.mk none)).1 =
      (generate_first_two_messages
        (generate_first_two_messages (LazyCell.mk none)).2).1 :=
  rfl

/-- Accessing a lazy cell that already holds v returns v every time and
never reruns the computation. -/
theorem lazyCell_accesses_cached (f : Unit → α) (v : α) (n : Nat) :
    LazyCell.accesses f n (LazyCell.mk (some v)) =
      (List.replicate n v, LazyCell.mk (some v), 0) := by
  induction n with
  | zero => rfl
  | succ n ih => simp [LazyCell.accesses, LazyCell.force, ih, List.replicate_succ]

/-- C6: the KEYPAIR lazy static, accessed any number of times starting
from the fresh process state, yields the keypair computed from TEST_SEED
on every access while running the computation min n 1 times (exactly once
as soon as it is accessed at all); and that same key material is the one
used by fuzz_initiator, by fuzz_responder and by corpus generation. -/
theorem keypair_once_and_shared :
    (∀ n : Nat,
      (LazyCell.accesses keypair_compute n (LazyCell.mk none)).1 =
        List.replicate n KEYPAIR_value ∧
      (LazyCell.accesses keypair_compute n (LazyCell.mk none)).2.2 = min n 1) ∧
    (∀ data, fuzz_initiator_outcome data =
      (NoiseUpgrader.new (PeerId.from_identity_public_key KEYPAIR_value.2)
        KEYPAIR_value.1 HandshakeAuthMode.ServerOnly).upgrade_outbound
        (FakeSocket.mk data) KEYPAIR_value.2 fake_timestamp) ∧
    (∀ data, fuzz_responder_outcome data =
      (NoiseUpgrader.new (PeerId.from_identity_public_key KEYPAIR_value.2)
        KEYPAIR_value.1 HandshakeAuthMode.ServerOnly).upgrade_inbound
        (FakeSocket.mk data)) ∧
    ((generate_first_two_messages (LazyCell.mk none)).1.1 =
      msg1 KEYPAIR_value.1 (PeerId.from_identity_public_key KEYPAIR_value.2)
        (fake_timestamp ()) KEYPAIR_value.2) := by
  refine ⟨?_, fun _ => rfl, fun _ => rfl, rfl⟩
  intro n
  cases n with
  | zero => exact ⟨rfl, rfl⟩
  | succ n =>
    have h := lazyCell_accesses_cached keypair_compute (keypair_compute ()) n
    constructor
    · simp [LazyCell.accesses, LazyCell.force, h, KEYPAIR_value,
        List.replicate_succ]
    · have h2 : min (n + 1) 1 = 1 := by omega
      simp [LazyCell.accesses, LazyCell.force, h, h2]

/-- C10: fake_timestamp returns the all-zero 8-byte array on every call,
so any two calls yield byte-identical arrays and equal timestamp values —
never strictly increasing ones; and fake_timestamp is the timestamp
provider used by fuzz_initiator and by corpus generation. -/
theorem fake_timestamp_constant :
    fake_timestamp () = List.replicate 8 0 ∧
    (∀ u v : Unit, fake_timestamp u = fake_timestamp v) ∧
    (∀ u v : Unit,
      decodeLE (fake_timestamp u) = decodeLE (fake_timestamp v)) ∧
    (∀ data, fuzz_initiator_outcome data =
      NoiseUpgrader.upgrade_outbound
        (NoiseUpgrader.new (PeerId.from_identity_public_key KEYPAIR_value.2)
          KEYPAIR_value.1 HandshakeAuthMode.ServerOnly)
        (FakeSocket.mk data) KEYPAIR_value.2 fake_timestamp) ∧
    ((generate_first_two_messages (LazyCell.mk none)).1.1 =
      msg1 KEYPAIR_value.1 (PeerId.from_identity_public_key KEYPAIR_value.2)
        (fake_timestamp ()) KEYPAIR_value.2) := by
  exact ⟨rfl, fun _ _ => rfl, fun _ _ => rfl, fun _ => rfl, rfl⟩
